import Mathlib

/-!
Verification of the wfb-ng control-plane modules: the stats-delta pipeline
(`sich_connection.py`), the per-channel metrics (`calculate_per` and the score
machinery), the channel set and hop logic (`sich_frequency_selection.py`), the
link-status state machine (`src/core/status/status_manager.py`) and the drone
power policy (`sich_power_selection.py` together with `manager.py`).

Python integers are modelled as `Int` (they are unbounded), wall-clock times as
`Rat`, and the float score/SNR arithmetic as `Real`.  Python's `round`
(round-half-to-even) is modelled explicitly as `pyRound`.
-/

namespace WfbNg

/-- `Utils.clamp(n, min_val, max_val)` from `sich_connection.py`:
`max(min_val, min(n, max_val))`. -/
def clamp {α : Type} [LinearOrder α] (n minVal maxVal : α) : α :=
  max minVal (min n maxVal)

/-- `Utils.safe_counter_diff(current, previous)` from `sich_connection.py`:
`diff = current - previous; if diff < 0: return current; return diff`. -/
def safe_counter_diff (current previous : ℤ) : ℤ :=
  let diff := current - previous
  if diff < 0 then current else diff

/-- Python's built-in `round` on a rational value: round half to even. -/
def pyRound (q : ℚ) : ℤ :=
  let f := ⌊q⌋
  let r := q - (f : ℚ)
  if r < 1/2 then f
  else if 1/2 < r then f + 1
  else if f % 2 = 0 then f else f + 1

/-- `MeasurementStats` from `sich_connection.py`: raw data of one measurement
of one stream. -/
structure MeasurementStats where
  p_total : ℤ
  p_bad : ℤ
  rssi : ℤ
  snr : ℤ
deriving DecidableEq, Repr

/-- `ChannelMeasurements` from `sich_connection.py`: the three per-stream
measurement windows. -/
structure ChannelMeasurements where
  video : List MeasurementStats
  mavlink : List MeasurementStats
  tunnel : List MeasurementStats
deriving DecidableEq, Repr

/-- `ChannelMeasurements()` constructor: all three windows empty. -/
def ChannelMeasurements.empty : ChannelMeasurements := ⟨[], [], []⟩

/-- `ChannelMeasurements.get(rx_id)`. -/
def ChannelMeasurements.get (m : ChannelMeasurements) (rxId : String) :
    Option (List MeasurementStats) :=
  if rxId = "video" then some m.video
  else if rxId = "mavlink" then some m.mavlink
  else if rxId = "tunnel" then some m.tunnel
  else none

/-- `ChannelMeasurements.has(rx_id)`: membership of `rx_id` in the three
stream names. -/
def ChannelMeasurements.hasStream (rxId : String) : Bool :=
  rxId = "video" ∨ rxId = "mavlink" ∨ rxId = "tunnel"

/-- `ChannelMeasurements.append(rx_id, stats)`: append to the matching window,
ignore unknown stream ids. -/
def ChannelMeasurements.appendStats (m : ChannelMeasurements) (rxId : String)
    (s : MeasurementStats) : ChannelMeasurements :=
  if rxId = "video" then { m with video := m.video ++ [s] }
  else if rxId = "mavlink" then { m with mavlink := m.mavlink ++ [s] }
  else if rxId = "tunnel" then { m with tunnel := m.tunnel ++ [s] }
  else m

/-- `ChannelMeasurements.values()`: the three windows in order. -/
def ChannelMeasurements.values (m : ChannelMeasurements) :
    List (List MeasurementStats) :=
  [m.video, m.mavlink, m.tunnel]

/-- Python `l[-n:]` for `n ≥ 1`: the last `n` elements of the list. -/
def lastN {α : Type} (n : ℕ) (l : List α) : List α :=
  l.drop (l.length - n)

/-- Python's `min` over a list of naturals (meaningful on non-empty lists;
`0` stands in for the error `min` would raise on an empty list). -/
def listMin : List ℕ → ℕ
  | [] => 0
  | [a] => a
  | a :: b :: t => min a (listMin (b :: t))

/-- Normalisation of the `frames` argument of `calculate_per` /
`calculate_snr`: `if frames is None or frames < 1: frames = 1`. -/
def normFrames (frames : Option ℤ) : ℤ :=
  match frames with
  | none => 1
  | some f => if f < 1 then 1 else f

/-- Contribution of one stream window to the PER sums: over the last `n`
frames, the total of `p_total` of the frames whose own `p_total > 0`. -/
def streamTotal (n : ℕ) (l : List MeasurementStats) : ℤ :=
  (((lastN n l).filter (fun s => 0 < s.p_total)).map (fun s => s.p_total)).sum

/-- Contribution of one stream window to the PER sums: over the last `n`
frames, the total of `p_bad` of the frames whose own `p_total > 0`. -/
def streamBad (n : ℕ) (l : List MeasurementStats) : ℤ :=
  (((lastN n l).filter (fun s => 0 < s.p_total)).map (fun s => s.p_bad)).sum

/-- `calculate_per(measurements, frames)` from `sich_connection.py`.
`frames` is capped to the shortest non-empty window; frames with
`p_total ≤ 0` do not contribute; with a positive total the bad sum is clamped
to the total, the ratio is rounded and clamped to `[0, 100]`; with no
contributing traffic the result is `100`. -/
def calculate_per (m : ChannelMeasurements) (frames? : Option ℤ) : ℤ :=
  let frames0 := normFrames frames?
  let lens := (m.values.filter (fun l => 0 < l.length)).map List.length
  if lens = [] then 100
  else
    let maxFrames := listMin lens
    let frames : ℕ := if (maxFrames : ℤ) < frames0 then maxFrames else frames0.toNat
    let nonEmpty := m.values.filter (fun l => 0 < l.length)
    let pTotal := (nonEmpty.map (streamTotal frames)).sum
    let pBad := (nonEmpty.map (streamBad frames)).sum
    if 0 < pTotal then
      clamp (pyRound ((min pBad pTotal : ℚ) / (pTotal : ℚ) * 100)) 0 100
    else 100

/-- PER as the amended claim words it: `round(100 · Σbad / Σtotal)` over the
last `n` frames of each non-empty stream window, where `n` is the requested
frame count (normalised to at least 1) additionally capped to the shortest
non-empty window so every stream contributes the same number of frames,
counting only frames whose individual `p_total > 0` and skipping streams with
empty windows, clamped to `[0, 100]`; `100` when there are no measurements at
all or when the contributing totals sum to `0`. -/
def per_spec (m : ChannelMeasurements) (frames? : Option ℤ) : ℤ :=
  if m.values.all (fun l => l.isEmpty) then 100
  else
    let lens := (m.values.filter (fun l => 0 < l.length)).map List.length
    let n : ℕ := min (normFrames frames?).toNat (listMin lens)
    let nonEmpty := m.values.filter (fun l => 0 < l.length)
    let pTotal := (nonEmpty.map (streamTotal n)).sum
    let pBad := (nonEmpty.map (streamBad n)).sum
    if pTotal = 0 then 100
    else clamp (pyRound (100 * (pBad : ℚ) / (pTotal : ℚ))) 0 100

/-- PER exactly as the original claim words it: `round(100 · Σbad / Σtotal)`
over the last `N` frames of each non-empty stream window, for the requested
frame count `N` itself (only normalised to at least 1, never capped to the
window lengths), counting only frames whose individual `p_total > 0` and
skipping streams with empty windows, clamped to `[0, 100]`; `100` when there
are no measurements at all or when the contributing totals sum to `0`. -/
def per_claim (m : ChannelMeasurements) (frames? : Option ℤ) : ℤ :=
  if m.values.all (fun l => l.isEmpty) then 100
  else
    let n : ℕ := (normFrames frames?).toNat
    let nonEmpty := m.values.filter (fun l => 0 < l.length)
    let pTotal := (nonEmpty.map (streamTotal n)).sum
    let pBad := (nonEmpty.map (streamBad n)).sum
    if pTotal = 0 then 100
    else clamp (pyRound (100 * (pBad : ℚ) / (pTotal : ℚ))) 0 100

/-- The second elements (`[?, cumulative]`) of the three tracked packet
counters of a validated `rx` record: `packets['all'][1]`, `packets['lost'][1]`,
`packets['dec_err'][1]`. -/
structure PacketCounters where
  all : ℤ
  lost : ℤ
  dec_err : ℤ
deriving DecidableEq, Repr

/-- Lookup in the `StatsFactory._prev` dictionary, keyed by the normalised
stream id. -/
def lookupPrev (m : List (String × PacketCounters)) (rxId : String) :
    Option PacketCounters :=
  match m with
  | [] => none
  | (k, v) :: t => if k = rxId then some v else lookupPrev t rxId

/-- Dictionary assignment `self._prev[rx_id] = {...}`. -/
def storePrev (m : List (String × PacketCounters)) (rxId : String)
    (cur : PacketCounters) : List (String × PacketCounters) :=
  (rxId, cur) :: m.filter (fun e => ¬ e.1 = rxId)

/-- The packet-delta core of `StatsFactory.update` (lines 150–166 of
`sich_connection.py`), for a validated `rx` record carrying a session: with no
previous sample for the stream id, emit the absolute counters
(`p_total = all`, `p_bad = lost + dec_err`); otherwise emit
`safe_counter_diff` of each counter, with `p_bad` the sum of the lost and
dec_err diffs. -/
def updateDeltas (prev : Option PacketCounters) (cur : PacketCounters) : ℤ × ℤ :=
  match prev with
  | none => (cur.all, cur.lost + cur.dec_err)
  | some p =>
    let pTotal := safe_counter_diff cur.all p.all
    let pLost := safe_counter_diff cur.lost p.lost
    let pDecErr := safe_counter_diff cur.dec_err p.dec_err
    (pTotal, pLost + pDecErr)

/-- `StatsFactory.update` restricted to the packet counters, as a function of
the `_prev` map: returns the emitted `(p_total, p_bad)` of the `stats_dict`
and the updated `_prev` map (`self._prev[rx_id] = {'packets': ...}`). -/
def statsUpdate (prev : List (String × PacketCounters)) (rxId : String)
    (cur : PacketCounters) :
    (ℤ × ℤ) × List (String × PacketCounters) :=
  (updateDeltas (lookupPrev prev rxId) cur, storePrev prev rxId cur)

/-- `Utils.linear_average_snr(snr_list)`: linear-scale averaging of dB values.
Empty input (or an empty first row) gives `0`; otherwise the strictly positive
samples are converted to linear power `10^(snr/10)`, averaged, and converted
back with `10·log10`. -/
noncomputable def linear_average_snr (rows : List (List ℤ)) : ℝ :=
  match rows with
  | [] => 0
  | r0 :: _ =>
    if r0 = [] then 0
    else
      let xs := rows.flatten.filter (fun snr => 0 < snr)
      if xs.length = 0 then 0
      else
        let s : ℝ := (xs.map (fun k => (10 : ℝ) ^ ((k : ℝ) / 10))).sum
        10 * Real.logb 10 (s / (xs.length : ℝ))

/-- `calculate_snr(measurements, frames)` from `sich_connection.py`. -/
noncomputable def calculate_snr (m : ChannelMeasurements) (frames? : Option ℤ) : ℝ :=
  let frames0 := normFrames frames?
  let active := m.values.filter (fun l => 0 < l.length)
  if active = [] then 0
  else
    let maxFrames := listMin (active.map List.length)
    let frames : ℕ := if (maxFrames : ℤ) < frames0 then maxFrames else frames0.toNat
    let snrVals := (active.map
        (fun l => ((lastN frames l).map (fun s => s.snr)).filter (fun x => ¬ x = 0))).filter
      (fun w => ¬ w = [])
    if snrVals = [] then 0 else linear_average_snr snrVals

/-- `calculate_rssi(measurements)` from `sich_connection.py`: integer-rounded
mean of the latest sample's RSSI over the streams that have data. -/
def calculate_rssi (m : ChannelMeasurements) : Option ℤ :=
  let rssis := (m.values.filter (fun l => 0 < l.length)).filterMap
    (fun l => (l.getLast?).map (fun s => s.rssi))
  if rssis = [] then none
  else some (pyRound ((rssis.sum : ℚ) / (rssis.length : ℚ)))

/-- The tunable score parameters read from `settings.common` by
`sich_frequency_selection.py`, with their `getattr` defaults. -/
structure ScoreConfig where
  score_frames : ℕ
  per_weight : ℚ
  snr_weight : ℚ
  per_max_penalty : ℚ
  snr_min_threshold : ℚ

/-- The default score parameters (`freq_sel_score_frames = 3`, weights 75/25,
max PER penalty 10, SNR threshold 20). -/
def defaultScoreConfig : ScoreConfig :=
  { score_frames := 3, per_weight := 75, snr_weight := 25,
    per_max_penalty := 10, snr_min_threshold := 20 }

/-- The score value appended by `Channel._update_score`:
`100 - (per_weight·clamp(per/per_max_penalty,0,1)
      + snr_weight·clamp((thr - snr)/thr,0,1))`. -/
noncomputable def update_score_value (cfg : ScoreConfig) (m : ChannelMeasurements) : ℝ :=
  let n : ℤ := cfg.score_frames
  let per := calculate_per m (some n)
  let snr := calculate_snr m (some n)
  let penPer := (cfg.per_weight : ℝ) *
    clamp ((per : ℝ) / (cfg.per_max_penalty : ℝ)) 0 1
  let penSnr := (cfg.snr_weight : ℝ) *
    clamp (((cfg.snr_min_threshold : ℝ) - snr) / (cfg.snr_min_threshold : ℝ)) 0 1
  100 - (penPer + penSnr)

/-- `Channel` from `sich_frequency_selection.py`: a frequency with its score
history, measurement windows and timestamps. -/
structure Channel where
  freq : ℤ
  score : List ℝ
  measurements : ChannelMeasurements
  last_packet_time : ℚ
  switched_at : ℚ

/-- `Channel(freq)` constructor: score history `[100]`, empty windows,
`_last_packet_time = 0`, `_switched_at = now`. -/
noncomputable def Channel.init (freq : ℤ) (now : ℚ) : Channel :=
  { freq := freq, score := [100], measurements := ChannelMeasurements.empty,
    last_packet_time := 0, switched_at := now }

/-- `Channel.add_measurement(rx_id, stats)`: ignore unknown stream ids; record
the packet time when `p_total > 0`; append the sample; recompute the score
when the non-empty windows all hold at least `score_frames` samples
(`lengths and min(lengths) >= _score_frames()`).  The score-updated callback
into `FrequencySelection` is external to this model. -/
noncomputable def add_measurement (cfg : ScoreConfig) (now : ℚ) (ch : Channel)
    (rxId : String) (s : MeasurementStats) : Channel :=
  if ¬ ChannelMeasurements.hasStream rxId then ch
  else
    let ch1 := if 0 < s.p_total then { ch with last_packet_time := now } else ch
    let m' := ch1.measurements.appendStats rxId s
    let ch2 := { ch1 with measurements := m' }
    let lens := (m'.values.filter (fun v => 0 < v.length)).map List.length
    if ¬ lens = [] ∧ cfg.score_frames ≤ listMin lens then
      { ch2 with score := ch2.score ++ [update_score_value cfg m'] }
    else ch2

/-- A channel as seen by the `Channels` navigation logic: Python object
identity is modelled by `id`; `freq` is the channel's frequency.  Channels
built by `ChannelsFactory` are shared by identity, so equal `id` means the
same underlying object. -/
structure SChannel where
  id : ℕ
  freq : ℤ
deriving DecidableEq, Repr

/-- The `Channels` container of `sich_frequency_selection.py`: the startup
channel (also the reserve), the ordered `freq_sel` hop list `_list`, and the
`_current_channel` cursor. -/
structure Channels where
  startup : SChannel
  reserve : SChannel
  list : List SChannel
  current : SChannel
deriving DecidableEq, Repr

/-- `Channels._index_of(channel)`: index of the first element of `_list` that
is the given object (identity comparison), else `None`. -/
def index_of : List SChannel → SChannel → Option ℕ
  | [], _ => none
  | a :: t, c => if a.id = c.id then some 0 else (index_of t c).map (· + 1)

/-- `Channels.next_channel()`: `None` on an empty list; `_list[0]` when the
current channel is not in the list; else `_list[(idx + 1) % len]`.  The index
is in range, so `List.get?` always returns the same element Python indexing
returns. -/
def next_channel (cs : Channels) : Option SChannel :=
  if cs.list.isEmpty then none
  else
    match index_of cs.list cs.current with
    | none => cs.list.get? 0
    | some i => cs.list.get? ((i + 1) % cs.list.length)

/-- `Channels.prev_channel()`: `None` on an empty list; `_list[0]` when the
current channel is not in the list; else `_list[(idx - 1) % len]` with
Python's non-negative modulo. -/
def prev_channel (cs : Channels) : Option SChannel :=
  if cs.list.isEmpty then none
  else
    match index_of cs.list cs.current with
    | none => cs.list.get? 0
    | some i => cs.list.get? ((((i : ℤ) - 1) % (cs.list.length : ℤ)).toNat)

/-- `Channels.first_freq_sel_channel`: `_list[0]` if the list is non-empty. -/
def first_freq_sel_channel (cs : Channels) : Option SChannel :=
  cs.list.get? 0

/-- `Channels.by_freq(freq)`: startup, then reserve, then the first list
element with the given frequency. -/
def by_freq (cs : Channels) (freq : ℤ) : Option SChannel :=
  if cs.startup.freq = freq then some cs.startup
  else if cs.reserve.freq = freq then some cs.reserve
  else cs.list.find? (fun c => c.freq = freq)

/-- One `iw dev <wlan> set freq|channel <target>` invocation issued by
`switch_wifiradio_to_channel`; `useFreqFlavor` is true when
`target_freq > 2000`. -/
structure IwCmd where
  wlan : String
  useFreqFlavor : Bool
  freq : ℤ
deriving DecidableEq, Repr

/-- The `for wlan in manager.wlans: yield call_and_check_rc(...)` loop:
issues the retune commands in order and stops at the first failing one.
Returns the commands issued and whether every one succeeded. -/
def runRetunes (wlans : List String) (retune : String → Bool) (freq : ℤ)
    (flavor : Bool) : List IwCmd × Bool :=
  match wlans with
  | [] => ([], true)
  | w :: ws =>
    let c : IwCmd := ⟨w, flavor, freq⟩
    if retune w then
      let r := runRetunes ws retune freq flavor
      (c :: r.1, r.2)
    else ([c], false)

/-- The mutable state touched by `switch_wifiradio_to_channel`: the
`Channels` cursor (identity and frequency of `_current_channel`), the metrics
manager's `_current_freq`, and each channel's measurement windows, score
history and `_switched_at` (keyed by channel identity). -/
structure HopSt where
  currentId : ℕ
  currentFreq : ℤ
  metricsFreq : Option ℤ
  meas : ℕ → ChannelMeasurements
  score : ℕ → List ℝ
  switchedAt : ℕ → ℚ

/-- `Channel.clear_measurements()` applied to the channel `cid` inside a
`HopSt`: trim each stream window and the score history to the last `keep`
entries (only when longer), and refresh `_switched_at`. -/
def clear_measurements_at (keep : ℕ) (now : ℚ) (cid : ℕ) (st : HopSt) : HopSt :=
  let trim : List MeasurementStats → List MeasurementStats :=
    fun l => if keep < l.length then lastN keep l else l
  let m := st.meas cid
  let m' : ChannelMeasurements :=
    { video := trim m.video, mavlink := trim m.mavlink, tunnel := trim m.tunnel }
  let sc := st.score cid
  let sc' := if keep < sc.length then lastN keep sc else sc
  { st with
    meas := fun i => if i = cid then m' else st.meas i,
    score := fun i => if i = cid then sc' else st.score i,
    switchedAt := fun i => if i = cid then now else st.switchedAt i }

/-- Result of `switch_wifiradio_to_channel`: the `iw` commands issued, the
resulting state, and whether the call returned normally (`ok = false` models
the re-raised exception propagating to the caller). -/
structure SwitchResult where
  cmds : List IwCmd
  st : HopSt
  ok : Bool

/-- `switch_wifiradio_to_channel(manager, channels, target_channel)` from
`sich_frequency_selection.py`: no-op on a `None` target or when the target
frequency equals the current one; otherwise retune every managed interface
(frequency flavour when `freq > 2000`, channel flavour otherwise); on any
failure re-raise without touching state; on success update the cursor, the
metrics frequency, clear the target's measurements and refresh its
`_switched_at`. -/
def switch_wifiradio_to_channel (wlans : List String) (retune : String → Bool)
    (keep : ℕ) (now : ℚ) (st : HopSt) (target? : Option SChannel) : SwitchResult :=
  match target? with
  | none => ⟨[], st, true⟩
  | some tc =>
    if tc.freq = st.currentFreq then ⟨[], st, true⟩
    else
      let flavor := 2000 < tc.freq
      let r := runRetunes wlans retune tc.freq flavor
      if r.2 then
        let st1 := { st with currentId := tc.id, currentFreq := tc.freq,
                             metricsFreq := some tc.freq }
        let st2 := clear_measurements_at keep now tc.id st1
        let st3 := { st2 with
          switchedAt := fun i => if i = tc.id then now else st2.switchedAt i }
        ⟨r.1, st3, true⟩
      else ⟨r.1, st, false⟩

/-- The `FrequencySelection` state relevant to the hop command handler: the
`freq_sel_enabled` flag and the channel container. -/
structure FreqSel where
  enabled : Bool
  channels : Channels
deriving DecidableEq, Repr

/-- `FrequencySelection.is_enabled()`: `enabled and channels.count > 1`. -/
def is_enabled (fs : FreqSel) : Bool :=
  fs.enabled ∧ 1 < fs.channels.list.length

/-- `FrequencySelection.get_action_time(interval)`: `time.time() + interval`. -/
def get_action_time (now interval : ℚ) : ℚ :=
  now + interval

/-- `HopScheduledGS2Drone.schedule(action_time, target_freq)`: resolve the
target (explicit frequency via `by_freq`, else first `freq_sel` channel when
on the reserve frequency, else the next channel); with no target nothing is
scheduled; otherwise the radio switch is deferred by
`max(0, action_time - now)` seconds.  Returns the absolute fire time and the
target. -/
def scheduleHop (cs : Channels) (now actionTime : ℚ) (targetFreq : Option ℤ) :
    Option (ℚ × SChannel) :=
  let target? :=
    match targetFreq with
    | some f => by_freq cs f
    | none =>
      if cs.current.freq = cs.reserve.freq then first_freq_sel_channel cs
      else next_channel cs
  match target? with
  | none => none
  | some t => some (now + max 0 (actionTime - now), t)

/-- The response dictionary of `FrequencySelection.handle_hop_command`
(merged unchanged into the manager's `freq_sel_hop` reply, whose base
`{"status": "success"}` entry is overridden by the handler's status). -/
inductive HopResp where
  | error
  | success (t : ℚ)
deriving DecidableEq, Repr

/-- `FrequencySelection.handle_hop_command()` on the drone: with frequency
selection disabled return the error response and schedule nothing; otherwise
compute `action_time = now + 1.0`, schedule the drone's own hop for that time
and return `{"status": "success", "time": action_time}`. -/
def handle_hop_command (fs : FreqSel) (now : ℚ) :
    HopResp × Option (ℚ × SChannel) :=
  if ¬ is_enabled fs then (HopResp.error, none)
  else
    let actionTime := get_action_time now 1
    (HopResp.success actionTime, scheduleHop fs.channels now actionTime none)

/-- The six link statuses of `StatusManager`. -/
inductive Status where
  | waiting
  | connected
  | armed
  | disarmed
  | lost
  | recovery
deriving DecidableEq, Repr

/-- The "normal" statuses `("armed", "connected", "disarmed")` used by the
lost-state capture and restore logic. -/
def Status.isActive (s : Status) : Bool :=
  s = Status.armed ∨ s = Status.connected ∨ s = Status.disarmed

/-- Side effects the state machine requests from `FrequencySelection` on
entering a state: resetting all channel statistics, the lost-entry local hop
to the first `freq_sel` channel, and the recovery-entry hop to the
wifi_channel reserve. -/
inductive SMEvent where
  | resetStats
  | hopToFirst
  | hopToReserve
deriving DecidableEq, Repr

/-- The slice of `FrequencySelection` state the status machine interacts
with: the enabled flag, the `freq_sel` channel count, the current and reserve
frequencies, and the two pending-hop deferred slots
(`_pending_scheduled_hop_d`, `_pending_hop_request_d`, holding their creation
times). -/
structure FSModel where
  enabled : Bool
  chanCount : ℕ
  curFreq : ℤ
  reserveFreq : ℤ
  pendingScheduledHop : Option ℚ
  pendingHopRequest : Option ℚ
deriving DecidableEq, Repr

/-- `FrequencySelection.is_enabled()` over the status-machine slice. -/
def FSModel.isEnabled (fs : FSModel) : Bool :=
  fs.enabled ∧ 1 < fs.chanCount

/-- `FrequencySelection.cancel_pending_scheduled_hop()`: cancel and null out
both pending-hop deferred slots. -/
def cancel_pending_scheduled_hop (fs : FSModel) : FSModel :=
  { fs with pendingScheduledHop := none, pendingHopRequest := none }

/-- The `StatusManager` state (`src/core/status/status_manager.py`). -/
structure SM where
  current : Status
  previousStatus : Option Status
  statusBeforeLost : Status
  lastPacketTime : Option ℚ
  lostSince : Option ℚ
  recoveredFromLostAt : Option ℚ
  hasEverEstablishedLink : Bool
  linkEstablishedFirstTime : Bool
  waitingEnteredAt : Option ℚ
  fs : FSModel
  events : List SMEvent
deriving DecidableEq, Repr

/-- `on_exit` of the states: only `WaitingState` does anything (clears
`_waiting_entered_at`). -/
def smOnExit (old : Status) (sm : SM) : SM :=
  match old with
  | Status.waiting => { sm with waitingEnteredAt := none }
  | _ => sm

/-- `on_enter` of the states.  `LostState.on_enter` captures
`_status_before_lost` from an active previous status (else keeps the stored
value), stamps `_lost_since`, and — with frequency selection enabled, an
active previous status and a first `freq_sel` channel — schedules the one
local hop to the first channel.  It does not touch the pending-hop slots.
`DisarmedState` and `RecoveryState` reset the channel statistics;
`RecoveryState` additionally hops to the reserve when not already on it. -/
def smOnEnter (new : Status) (prev : Status) (now : ℚ) (sm : SM) : SM :=
  match new with
  | Status.waiting => { sm with waitingEnteredAt := some now }
  | Status.connected => sm
  | Status.armed => sm
  | Status.disarmed => { sm with events := sm.events ++ [SMEvent.resetStats] }
  | Status.lost =>
    let sm1 :=
      if prev.isActive then { sm with statusBeforeLost := prev } else sm
    let sm2 := { sm1 with lostSince := some now }
    if sm2.fs.isEnabled ∧ prev.isActive ∧ 0 < sm2.fs.chanCount then
      { sm2 with events := sm2.events ++ [SMEvent.hopToFirst] }
    else sm2
  | Status.recovery =>
    let sm1 := { sm with events := sm.events ++ [SMEvent.resetStats] }
    if sm1.fs.isEnabled ∧ ¬ sm1.fs.curFreq = sm1.fs.reserveFreq then
      { sm1 with events := sm1.events ++ [SMEvent.hopToReserve] }
    else sm1

/-- `StatusManager._transition_to(state_name)`: no-op when already in the
state; otherwise record the previous status, run the old state's `on_exit`
and the new state's `on_enter`, then update `_recovered_from_lost_at` and
`_has_ever_established_link`. -/
def transition_to (now : ℚ) (sm : SM) (name : Status) : SM :=
  if sm.current = name then sm
  else
    let old := sm.current
    let sm1 := smOnExit old { sm with previousStatus := some old }
    let sm2 := smOnEnter name old now { sm1 with current := name }
    let sm3 :=
      if old = Status.lost ∧ name.isActive then
        { sm2 with recoveredFromLostAt := some now }
      else sm2
    let sm4 :=
      if name = Status.lost then { sm3 with recoveredFromLostAt := none }
      else sm3
    if old = Status.waiting ∧ name.isActive then
      { sm4 with hasEverEstablishedLink := true }
    else sm4

/-- `StatusManager.on_packet_received()`: stamp `_last_packet_time`, then let
the current state react — `LostState` clears `_lost_since` and restores the
pre-lost status (`connected` if the stored value is not an active status);
`RecoveryState` always goes to `connected`. -/
def on_packet_received (now : ℚ) (sm : SM) : SM :=
  let sm0 :=
    if sm.lastPacketTime = none ∧ ¬ sm.linkEstablishedFirstTime then
      { sm with linkEstablishedFirstTime := true }
    else sm
  let sm1 := { sm0 with lastPacketTime := some now }
  match sm1.current with
  | Status.lost =>
    let sm2 := { sm1 with lostSince := none }
    let restore :=
      if sm2.statusBeforeLost.isActive then sm2.statusBeforeLost
      else Status.connected
    transition_to now sm2 restore
  | Status.recovery => transition_to now sm1 Status.connected
  | _ => sm1

/-- `StatusManager.__init__` followed by its `_transition_to("waiting")`:
waiting state, `_status_before_lost = "connected"`, no packets seen. -/
def initSM (now : ℚ) (fs : FSModel) : SM :=
  { current := Status.waiting, previousStatus := none,
    statusBeforeLost := Status.connected, lastPacketTime := none,
    lostSince := none, recoveredFromLostAt := none,
    hasEverEstablishedLink := false, linkEstablishedFirstTime := false,
    waitingEnteredAt := some now, fs := fs, events := [] }

/-- The three states of `PowerSelection`. -/
inductive PSState where
  | disabled
  | locked
  | active
deriving DecidableEq, Repr

/-- The `PowerSelection` state (`sich_power_selection.py`): the
`power_sel_enabled` flag, the `power_sel_levels` ladder, the current state,
the current level index, and the log of `iw ... set txpower fixed <value>`
commands issued (one per managed interface). -/
structure PS where
  enabled : Bool
  levels : List ℤ
  state : PSState
  levelIndex : ℕ
  txCmds : List (String × ℤ)
deriving DecidableEq, Repr

/-- `PowerSelection.set_txpower_level(level_index)`: no-op without levels or
out of range; otherwise store the index and set the level's raw value on
every managed interface. -/
def set_txpower_level (wlans : List String) (ps : PS) (idx : ℕ) : PS :=
  if ps.levels = [] then ps
  else if ps.levels.length ≤ idx then ps
  else
    let v := ps.levels.getD idx 0
    { ps with levelIndex := idx,
              txCmds := ps.txCmds ++ wlans.map (fun w => (w, v)) }

/-- `PowerSelection.set_minimum_power()`: first level, only when enabled. -/
def set_minimum_power (wlans : List String) (ps : PS) : PS :=
  if ¬ ps.enabled ∨ ps.levels = [] then ps
  else set_txpower_level wlans ps 0

/-- `PowerSelection.set_maximum_power()`: last level, also when disabled. -/
def set_maximum_power (wlans : List String) (ps : PS) : PS :=
  if ps.levels = [] then ps
  else set_txpower_level wlans ps (ps.levels.length - 1)

/-- `PowerSelection._transition_to(state_name)`: no-op when the state is
unchanged; otherwise switch state and run the new state's `on_enter`
(`DisabledState` and `ActiveAdjustmentState` set maximum power,
`LockedState` sets minimum power). -/
def ps_transition_to (wlans : List String) (ps : PS) (name : PSState) : PS :=
  if ps.state = name then ps
  else
    let ps1 := { ps with state := name }
    match name with
    | PSState.disabled => set_maximum_power wlans ps1
    | PSState.locked => set_minimum_power wlans ps1
    | PSState.active => set_maximum_power wlans ps1

/-- `PowerSelection.on_arm()`: transition to `active` when enabled. -/
def ps_on_arm (wlans : List String) (ps : PS) : PS :=
  if ps.enabled then ps_transition_to wlans ps PSState.active else ps

/-- `PowerSelection.on_disarm()`: transition to `locked` when enabled. -/
def ps_on_disarm (wlans : List String) (ps : PS) : PS :=
  if ps.enabled then ps_transition_to wlans ps PSState.locked else ps

/-- `DroneManager.on_status_changed(old_status, new_status)` restricted to
its effect on `PowerSelection`: `armed → on_arm()`;
`disarmed → on_disarm()` then `set_minimum_power()`;
`connected → set_minimum_power()`; other statuses leave power alone. -/
def drone_on_status_changed (wlans : List String) (ps : PS) (new : Status) : PS :=
  match new with
  | Status.armed => ps_on_arm wlans ps
  | Status.disarmed => set_minimum_power wlans (ps_on_disarm wlans ps)
  | Status.connected => set_minimum_power wlans ps
  | _ => ps

/-! ## Helper lemmas -/

theorem safe_counter_diff_eq (c p : ℤ) :
    safe_counter_diff c p = if c - p < 0 then c else c - p := rfl

theorem safe_counter_diff_nonneg (c p : ℤ) (hc : 0 ≤ c) :
    0 ≤ safe_counter_diff c p := by
  rw [safe_counter_diff_eq]
  split
  · exact hc
  · omega

/-! ## C1 — p_bad vs p_total at emission -/

/-- C1, counterexample: the very first sample for a stream id emits the
absolute counters without any clamping, so a record with
`all = 0, lost = 1, dec_err = 0` yields `p_bad = 1 > 0 = p_total`. -/
theorem statsUpdate_first_sample_bad_exceeds_total :
    (statsUpdate [] "video" ⟨0, 1, 0⟩).1 = (0, 1) ∧
      ¬ (statsUpdate [] "video" ⟨0, 1, 0⟩).1.2 ≤ (statsUpdate [] "video" ⟨0, 1, 0⟩).1.1 := by
  constructor
  · rfl
  · decide

/-- C1 (amended): every `(p_total, p_bad)` pair emitted by
`StatsFactory.update` from a validated `rx` record with a session is
non-negative whenever the current wire counters are non-negative; the bound
`p_bad ≤ p_total` is not enforced at emission. -/
theorem statsUpdate_emits_nonneg (prev : List (String × PacketCounters))
    (rxId : String) (cur : PacketCounters) (hall : 0 ≤ cur.all)
    (hlost : 0 ≤ cur.lost) (hdec : 0 ≤ cur.dec_err) :
    0 ≤ (statsUpdate prev rxId cur).1.1 ∧ 0 ≤ (statsUpdate prev rxId cur).1.2 := by
  unfold statsUpdate updateDeltas
  cases lookupPrev prev rxId with
  | none =>
    exact ⟨hall, by simpa using add_nonneg hlost hdec⟩
  | some p =>
    refine ⟨safe_counter_diff_nonneg _ _ hall, ?_⟩
    exact add_nonneg (safe_counter_diff_nonneg _ _ hlost)
      (safe_counter_diff_nonneg _ _ hdec)

/-- C1, witness: the non-negativity theorem applied to a concrete record. -/
theorem statsUpdate_emits_nonneg_witness :
    0 ≤ (statsUpdate [("video", ⟨5, 1, 0⟩)] "video" ⟨10, 2, 1⟩).1.1 ∧
      0 ≤ (statsUpdate [("video", ⟨5, 1, 0⟩)] "video" ⟨10, 2, 1⟩).1.2 :=
  statsUpdate_emits_nonneg [("video", ⟨5, 1, 0⟩)] "video" ⟨10, 2, 1⟩
    (by decide) (by decide) (by decide)

/-! ## C2 — counter regression fallback -/

/-- C2, counterexample: with previous counters `all=100, lost=10, dec_err=0`
and current `all=150, lost=5, dec_err=0` the `lost` counter regresses, yet
the emitted pair is `(50, 5)` — `p_total` stays the delta `50`, not the
current absolute `all = 150`, because each counter falls back
independently. -/
theorem statsUpdate_regression_counterexample :
    (statsUpdate [("video", ⟨100, 10, 0⟩)] "video" ⟨150, 5, 0⟩).1 = (50, 5) ∧
      ((5 : ℤ) - 10 < 0) ∧ ¬ ((50 : ℤ) = 150) := by
  refine ⟨by rfl, by decide, by decide⟩

/-- C2 (amended): with a previous sample present, each tracked counter falls
back to its own current absolute value independently (`p_total` from `all`,
`p_bad` as the sum of the per-counter fallbacks of `lost` and `dec_err`);
only when all three counters regress does the emitted pair equal
`(current all, current lost + current dec_err)`; both emitted values are
non-negative when the current wire counters are. -/
theorem statsUpdate_regression_per_counter (m : List (String × PacketCounters))
    (rxId : String) (cur p : PacketCounters)
    (hprev : lookupPrev m rxId = some p) :
    (statsUpdate m rxId cur).1 =
      ((if cur.all - p.all < 0 then cur.all else cur.all - p.all),
       (if cur.lost - p.lost < 0 then cur.lost else cur.lost - p.lost) +
       (if cur.dec_err - p.dec_err < 0 then cur.dec_err else cur.dec_err - p.dec_err)) ∧
    (cur.all - p.all < 0 → cur.lost - p.lost < 0 → cur.dec_err - p.dec_err < 0 →
      (statsUpdate m rxId cur).1 = (cur.all, cur.lost + cur.dec_err)) ∧
    (0 ≤ cur.all → 0 ≤ cur.lost → 0 ≤ cur.dec_err →
      0 ≤ (statsUpdate m rxId cur).1.1 ∧ 0 ≤ (statsUpdate m rxId cur).1.2) := by
  have key : (statsUpdate m rxId cur).1 =
      ((if cur.all - p.all < 0 then cur.all else cur.all - p.all),
       (if cur.lost - p.lost < 0 then cur.lost else cur.lost - p.lost) +
       (if cur.dec_err - p.dec_err < 0 then cur.dec_err else cur.dec_err - p.dec_err)) := by
    show updateDeltas (lookupPrev m rxId) cur = _
    rw [hprev]
    show (safe_counter_diff cur.all p.all,
      safe_counter_diff cur.lost p.lost + safe_counter_diff cur.dec_err p.dec_err) = _
    rw [safe_counter_diff_eq, safe_counter_diff_eq, safe_counter_diff_eq]
  refine ⟨key, ?_, ?_⟩
  · intro h1 h2 h3
    rw [key]
    simp [h1, h2, h3]
  · intro h1 h2 h3
    rw [key]
    constructor
    · dsimp only
      split <;> omega
    · dsimp only
      split <;> split <;> omega

/-- C2, witness: the per-counter fallback theorem applied to a record where
all three counters regress, yielding the absolute current counters. -/
theorem statsUpdate_regression_per_counter_witness :
    (statsUpdate [("video", ⟨100, 10, 5⟩)] "video" ⟨50, 3, 1⟩).1 = (50, 4) := by
  have h := statsUpdate_regression_per_counter [("video", ⟨100, 10, 5⟩)] "video"
    ⟨50, 3, 1⟩ ⟨100, 10, 5⟩ (by rfl)
  have h2 := h.2.1 (by decide) (by decide) (by decide)
  simpa using h2

/-! ## C3 — pending hops on entering lost -/

/-- A state-machine state in `connected` with frequency selection enabled and
a scheduled hop deferred pending (created at time 12). -/
def c3SM : SM :=
  { current := Status.connected, previousStatus := none,
    statusBeforeLost := Status.connected, lastPacketTime := some 0,
    lostSince := none, recoveredFromLostAt := none,
    hasEverEstablishedLink := true, linkEstablishedFirstTime := true,
    waitingEnteredAt := none,
    fs := { enabled := true, chanCount := 3, curFreq := 5805,
            reserveFreq := 5745, pendingScheduledHop := some 12,
            pendingHopRequest := none },
    events := [] }

/-- C3 (code bug evidence): transitioning the state machine into `lost` with
a scheduled hop pending leaves both pending-hop slots untouched —
`LostState.on_enter` never invokes `cancel_pending_scheduled_hop`, although
that operation (which does clear both slots) exists precisely for lost entry
according to its own docstring. -/
theorem lost_entry_leaves_pending_hops :
    (transition_to 100 c3SM Status.lost).current = Status.lost ∧
      (transition_to 100 c3SM Status.lost).fs.pendingScheduledHop = some 12 ∧
      (cancel_pending_scheduled_hop (transition_to 100 c3SM Status.lost).fs).pendingScheduledHop = none ∧
      (cancel_pending_scheduled_hop (transition_to 100 c3SM Status.lost).fs).pendingHopRequest = none := by
  refine ⟨rfl, rfl, rfl, rfl⟩

/-! ## C9 — power policy on armed / connected -/

/-- A drone power-selection state: enabled, two levels, currently locked at
the first level. -/
def c9PS : PS :=
  { enabled := true, levels := [1600, 2600], state := PSState.locked,
    levelIndex := 0, txCmds := [] }

/-- C9, counterexample: a status change into `connected` calls
`set_minimum_power`, so from the locked state the policy stays locked at
level index 0 — it neither enters `ActiveAdjustmentState` nor sets the last
(highest) level. -/
theorem drone_connected_power_counterexample :
    (drone_on_status_changed ["wlan0"] c9PS Status.connected).state = PSState.locked ∧
      ¬ (drone_on_status_changed ["wlan0"] c9PS Status.connected).state = PSState.active ∧
      (drone_on_status_changed ["wlan0"] c9PS Status.connected).levelIndex = 0 ∧
      ¬ (drone_on_status_changed ["wlan0"] c9PS Status.connected).levelIndex =
        c9PS.levels.length - 1 := by
  refine ⟨rfl, by decide, rfl, by decide⟩

/-- C9 (amended): with power selection enabled and a non-empty level ladder,
a transition into `armed` puts the policy into `ActiveAdjustmentState` (and,
when it was not already active, entry sets the last/highest level; when
already active nothing changes), while a transition into `connected` leaves
the policy state unchanged and sets the first (minimum) level. -/
theorem drone_power_policy_armed_connected (wlans : List String) (ps : PS)
    (hen : ps.enabled = true) (hlv : ¬ ps.levels = []) :
    ((drone_on_status_changed wlans ps Status.armed).state = PSState.active ∧
     (¬ ps.state = PSState.active →
       (drone_on_status_changed wlans ps Status.armed).levelIndex = ps.levels.length - 1) ∧
     (ps.state = PSState.active → drone_on_status_changed wlans ps Status.armed = ps)) ∧
    ((drone_on_status_changed wlans ps Status.connected).state = ps.state ∧
     (drone_on_status_changed wlans ps Status.connected).levelIndex = 0) := by
  have hlen : 0 < ps.levels.length := List.length_pos.mpr hlv
  have hif1 : ¬ (ps.levels.length ≤ ps.levels.length - 1) := by omega
  have hif0 : ¬ (ps.levels.length ≤ 0) := by omega
  constructor
  · by_cases hst : ps.state = PSState.active
    · refine ⟨?_, ?_, ?_⟩ <;>
        simp [drone_on_status_changed, ps_on_arm, ps_transition_to, hen, hst]
    · have harm : drone_on_status_changed wlans ps Status.armed =
          set_maximum_power wlans { ps with state := PSState.active } := by
        simp [drone_on_status_changed, ps_on_arm, ps_transition_to, hen, hst]
      refine ⟨?_, ?_, ?_⟩
      · rw [harm]
        simp [set_maximum_power, set_txpower_level, hlv, hif1]
      · intro _
        rw [harm]
        simp [set_maximum_power, set_txpower_level, hlv, hif1]
      · intro h
        exact absurd h hst
  · constructor
    · simp [drone_on_status_changed, set_minimum_power, set_txpower_level, hen, hlv, hif0]
    · simp [drone_on_status_changed, set_minimum_power, set_txpower_level, hen, hlv, hif0]

/-- C9, witness: the amended power-policy theorem at a concrete state. -/
theorem drone_power_policy_armed_connected_witness :
    (drone_on_status_changed ["wlan0"] c9PS Status.armed).state = PSState.active ∧
      (drone_on_status_changed ["wlan0"] c9PS Status.armed).levelIndex =
        c9PS.levels.length - 1 ∧
      (drone_on_status_changed ["wlan0"] c9PS Status.connected).levelIndex = 0 := by
  have h := drone_power_policy_armed_connected ["wlan0"] c9PS (by rfl) (by decide)
  exact ⟨h.1.1, h.1.2.1 (by decide), h.2.2⟩

/-! ## C10 — cyclic next/prev channel navigation -/

theorem index_of_eq_none_iff (l : List SChannel) (c : SChannel) :
    index_of l c = none ↔ ∀ a ∈ l, ¬ a.id = c.id := by
  induction l with
  | nil => simp [index_of]
  | cons a t ih =>
    by_cases h : a.id = c.id
    · simp [index_of, h]
    · simp [index_of, h, Option.map_eq_none', ih]

theorem index_of_lt_length (l : List SChannel) (c : SChannel) (i : ℕ)
    (h : index_of l c = some i) : i < l.length := by
  induction l generalizing i with
  | nil => simp [index_of] at h
  | cons a t ih =>
    simp only [index_of] at h
    split_ifs at h with ha
    · have hi : i = 0 := (Option.some.inj h).symm
      subst hi
      simp
    · rw [Option.map_eq_some'] at h
      obtain ⟨j, hj, hji⟩ := h
      have := ih j hj
      simp
      omega

theorem prev_index_eq (i n : ℕ) (hn : 0 < n) (_hi : i < n) :
    (((i : ℤ) - 1) % (n : ℤ)).toNat = (i + n - 1) % n := by
  have h1 : (i : ℤ) - 1 = ((i + n - 1 : ℕ) : ℤ) + (n : ℤ) * (-1) := by
    push_cast [Nat.cast_sub (by omega : 1 ≤ i + n)]
    ring
  rw [h1, Int.add_mul_emod_self_left, ← Int.natCast_mod]
  exact Int.toNat_natCast _

/-- C10 (confirmed): with an empty hop list both `next_channel` and
`prev_channel` return `None`; when the current channel is the (first-match)
`i`-th element of the hop list they return the elements at
`(i + 1) mod n` and `(i - 1) mod n` (written `(i + n - 1) mod n` over ℕ);
when the current channel is not in the hop list both return the first
element. -/
theorem next_prev_channel_spec (cs : Channels) :
    (cs.list = [] → next_channel cs = none ∧ prev_channel cs = none) ∧
    (∀ i, index_of cs.list cs.current = some i →
      next_channel cs = cs.list.get? ((i + 1) % cs.list.length) ∧
      prev_channel cs = cs.list.get? ((i + cs.list.length - 1) % cs.list.length)) ∧
    ((∀ a ∈ cs.list, ¬ a.id = cs.current.id) → ¬ cs.list = [] →
      next_channel cs = cs.list.get? 0 ∧ prev_channel cs = cs.list.get? 0) := by
  refine ⟨?_, ?_, ?_⟩
  · intro h
    constructor <;> simp [next_channel, prev_channel, h]
  · intro i hi
    have hlen : i < cs.list.length := index_of_lt_length _ _ _ hi
    have hpos : 0 < cs.list.length := by omega
    have hne : ¬ cs.list.isEmpty = true := by
      simp [List.isEmpty_iff]
      exact List.ne_nil_of_length_pos hpos
    constructor
    · simp [next_channel, hi, hne]
    · simp [prev_channel, hi, hne, prev_index_eq i cs.list.length hpos hlen]
  · intro hnone hne
    have hidx : index_of cs.list cs.current = none :=
      (index_of_eq_none_iff _ _).mpr hnone
    have hne2 : ¬ cs.list.isEmpty = true := by simpa [List.isEmpty_iff] using hne
    constructor <;> simp [next_channel, prev_channel, hidx, hne2]

/-- A concrete three-channel hop list with the cursor on its second
element. -/
def c10Channels : Channels :=
  { startup := ⟨0, 5745⟩, reserve := ⟨0, 5745⟩,
    list := [⟨1, 5765⟩, ⟨2, 5785⟩, ⟨3, 5805⟩], current := ⟨2, 5785⟩ }

/-- C10, witness: navigation from the middle of a concrete three-element hop
list. -/
theorem next_prev_channel_spec_witness :
    next_channel c10Channels = some ⟨3, 5805⟩ ∧
      prev_channel c10Channels = some ⟨1, 5765⟩ := by
  have h := (next_prev_channel_spec c10Channels).2.1 1 (by decide)
  constructor
  · rw [h.1]
    decide
  · rw [h.2]
    decide

/-! ## C7 — the drone's freq_sel_hop handler -/

theorem next_channel_isSome (cs : Channels) (h : 0 < cs.list.length) :
    ∃ t, next_channel cs = some t := by
  have hne : ¬ cs.list.isEmpty = true := by
    simp [List.isEmpty_iff]
    exact List.ne_nil_of_length_pos h
  unfold next_channel
  cases hidx : index_of cs.list cs.current with
  | none =>
    refine ⟨cs.list.get ⟨0, h⟩, ?_⟩
    simp [hne, List.get?_eq_get h]
  | some i =>
    have hm : (i + 1) % cs.list.length < cs.list.length := Nat.mod_lt _ h
    refine ⟨cs.list.get ⟨(i + 1) % cs.list.length, hm⟩, ?_⟩
    simp [hne, List.get?_eq_get hm]

theorem first_freq_sel_isSome (cs : Channels) (h : 0 < cs.list.length) :
    ∃ t, first_freq_sel_channel cs = some t := by
  refine ⟨cs.list.get ⟨0, h⟩, ?_⟩
  simp [first_freq_sel_channel, List.get?_eq_get h]

/-- C7 (confirmed): `handle_hop_command` answers with the error status
exactly when frequency selection is disabled or fewer than two hop channels
are configured; otherwise it answers `{"status": "success", "time": now + 1}`
and schedules the drone's own radio switch to fire at `now + 1` with the
target chosen by the rule "on the reserve frequency → first hop channel,
else next hop channel". -/
theorem handle_hop_command_spec (fs : FreqSel) (now : ℚ) :
    ((handle_hop_command fs now).1 = HopResp.error ↔
      ¬ (fs.enabled = true ∧ 2 ≤ fs.channels.list.length)) ∧
    (is_enabled fs = true →
      (handle_hop_command fs now).1 = HopResp.success (now + 1) ∧
      ∃ t, (handle_hop_command fs now).2 = some (now + 1, t) ∧
        (fs.channels.current.freq = fs.channels.reserve.freq →
          some t = first_freq_sel_channel fs.channels) ∧
        (¬ fs.channels.current.freq = fs.channels.reserve.freq →
          some t = next_channel fs.channels)) := by
  have hiff : is_enabled fs = true ↔ fs.enabled = true ∧ 2 ≤ fs.channels.list.length := by
    unfold is_enabled
    simp [Nat.lt_iff_add_one_le]
  have hfire : now + max 0 (get_action_time now 1 - now) = now + 1 := by
    unfold get_action_time
    have h1 : now + 1 - now = (1 : ℚ) := by ring
    rw [h1, max_eq_right (by norm_num : (0 : ℚ) ≤ 1)]
  constructor
  · by_cases hen : is_enabled fs = true
    · have hsucc : (handle_hop_command fs now).1 = HopResp.success (get_action_time now 1) := by
        unfold handle_hop_command
        simp [hen]
      rw [hsucc]
      simp [hiff.mp hen]
    · have herr : (handle_hop_command fs now).1 = HopResp.error := by
        unfold handle_hop_command
        simp [hen]
      rw [herr]
      simp only [true_iff]
      intro hc
      exact hen (hiff.mpr hc)
  · intro hen
    have hlen : 0 < fs.channels.list.length := by
      have := (hiff.mp hen).2
      omega
    have hcmd : handle_hop_command fs now =
        (HopResp.success (get_action_time now 1),
         scheduleHop fs.channels now (get_action_time now 1) none) := by
      unfold handle_hop_command
      simp [hen]
    constructor
    · rw [hcmd]
      simp [get_action_time]
    · by_cases hres : fs.channels.current.freq = fs.channels.reserve.freq
      · obtain ⟨t, ht⟩ := first_freq_sel_isSome fs.channels hlen
        refine ⟨t, ?_, fun _ => ht.symm, fun hc => absurd hres hc⟩
        rw [hcmd]
        unfold scheduleHop
        simp [hres, ht, hfire]
      · obtain ⟨t, ht⟩ := next_channel_isSome fs.channels hlen
        refine ⟨t, ?_, fun hc => absurd hc hres, fun _ => ht.symm⟩
        rw [hcmd]
        unfold scheduleHop
        simp [hres, ht, hfire]

/-- A concrete enabled frequency-selection state sitting on the reserve
frequency with two hop channels. -/
def c7FS : FreqSel :=
  { enabled := true,
    channels := { startup := ⟨0, 5745⟩, reserve := ⟨0, 5745⟩,
                  list := [⟨1, 5785⟩, ⟨2, 5805⟩], current := ⟨0, 5745⟩ } }

/-- C7, witness: on the reserve frequency the handler succeeds with
`time = now + 1` and schedules the hop to the first hop channel at that
time. -/
theorem handle_hop_command_spec_witness :
    (handle_hop_command c7FS 10).1 = HopResp.success (10 + 1) ∧
      (handle_hop_command c7FS 10).2 = some (10 + 1, ⟨1, 5785⟩) := by
  have h := (handle_hop_command_spec c7FS 10).2 (by decide)
  obtain ⟨hresp, t, ht, hrule⟩ := h
  have hfirst : some t = first_freq_sel_channel c7FS.channels := hrule.1 (by decide)
  have ht2 : t = ⟨1, 5785⟩ := by
    rw [show first_freq_sel_channel c7FS.channels = some ⟨1, 5785⟩ from rfl] at hfirst
    exact Option.some.inj hfirst
  rw [ht2] at ht
  exact ⟨hresp, ht⟩

/-! ## C6 — retune no-op and failure atomicity -/

theorem runRetunes_false (wlans : List String) (retune : String → Bool)
    (f : ℤ) (fl : Bool) (h : ∃ w ∈ wlans, retune w = false) :
    (runRetunes wlans retune f fl).2 = false := by
  induction wlans with
  | nil => simp at h
  | cons w ws ih =>
    obtain ⟨x, hx, hxf⟩ := h
    by_cases hw : retune w = true
    · have hxs : x ∈ ws := by
        cases hx with
        | head => rw [hxf] at hw; cases hw
        | tail _ h2 => exact h2
      simp [runRetunes, hw, ih ⟨x, hxs, hxf⟩]
    · simp only [Bool.not_eq_true] at hw
      simp [runRetunes, hw]

/-- C6 (confirmed): calling `switch_wifiradio_to_channel` with a target on the
current frequency issues no `iw` command and changes nothing; and when the
frequencies differ but some managed interface fails to retune, the call
signals the error (the exception is re-raised) and the channel cursor, the
metrics frequency, and every channel's measurement windows and
`_switched_at` are left exactly as they were. -/
theorem switch_wifiradio_spec (wlans : List String) (retune : String → Bool)
    (keep : ℕ) (now : ℚ) (st : HopSt) (tc : SChannel) :
    (tc.freq = st.currentFreq →
      switch_wifiradio_to_channel wlans retune keep now st (some tc) =
        ⟨[], st, true⟩) ∧
    (¬ tc.freq = st.currentFreq → (∃ w ∈ wlans, retune w = false) →
      (switch_wifiradio_to_channel wlans retune keep now st (some tc)).ok = false ∧
      (switch_wifiradio_to_channel wlans retune keep now st (some tc)).st = st) := by
  constructor
  · intro heq
    simp [switch_wifiradio_to_channel, heq]
  · intro hne hex
    have hr2 := runRetunes_false wlans retune tc.freq (2000 < tc.freq) hex
    constructor <;> simp [switch_wifiradio_to_channel, hne, hr2]

/-- A concrete hop state on 5745 MHz. -/
def c6St : HopSt :=
  { currentId := 0, currentFreq := 5745, metricsFreq := some 5745,
    meas := fun _ => ChannelMeasurements.empty, score := fun _ => [100],
    switchedAt := fun _ => 0 }

/-- The retune oracle of the C6 witness: `wlan0` succeeds, `wlan1` fails. -/
def c6Retune (w : String) : Bool := w = "wlan0"

/-- C6, witness: a same-frequency target is a complete no-op, and a failing
retune of `wlan1` propagates the error with the state intact. -/
theorem switch_wifiradio_spec_witness :
    switch_wifiradio_to_channel ["wlan0", "wlan1"] c6Retune 5 3 c6St
        (some ⟨9, 5745⟩) = ⟨[], c6St, true⟩ ∧
      (switch_wifiradio_to_channel ["wlan0", "wlan1"] c6Retune 5 3 c6St
        (some ⟨1, 5785⟩)).ok = false ∧
      (switch_wifiradio_to_channel ["wlan0", "wlan1"] c6Retune 5 3 c6St
        (some ⟨1, 5785⟩)).st = c6St := by
  have h1 := (switch_wifiradio_spec ["wlan0", "wlan1"] c6Retune 5 3 c6St ⟨9, 5745⟩).1
    (by decide)
  have h2 := (switch_wifiradio_spec ["wlan0", "wlan1"] c6Retune 5 3 c6St ⟨1, 5785⟩).2
    (by decide) ⟨"wlan1", by decide, by decide⟩
  exact ⟨h1, h2.1, h2.2⟩

/-! ## C8 — lost-state capture and restore -/

theorem SM_ite_current (c : Prop) [Decidable c] (a b : SM) :
    (if c then a else b).current = if c then a.current else b.current :=
  apply_ite (fun s : SM => s.current) c a b

theorem SM_ite_sbl (c : Prop) [Decidable c] (a b : SM) :
    (if c then a else b).statusBeforeLost =
      if c then a.statusBeforeLost else b.statusBeforeLost :=
  apply_ite (fun s : SM => s.statusBeforeLost) c a b

theorem smOnExit_current (old : Status) (sm : SM) :
    (smOnExit old sm).current = sm.current := by
  cases old <;> rfl

theorem smOnExit_sbl (old : Status) (sm : SM) :
    (smOnExit old sm).statusBeforeLost = sm.statusBeforeLost := by
  cases old <;> rfl

theorem smOnEnter_current (new prev : Status) (now : ℚ) (sm : SM) :
    (smOnEnter new prev now sm).current = sm.current := by
  cases new <;> simp [smOnEnter, SM_ite_current, ite_self]

theorem smOnEnter_lost_sbl (prev : Status) (now : ℚ) (sm : SM) :
    (smOnEnter Status.lost prev now sm).statusBeforeLost =
      if prev.isActive = true then prev else sm.statusBeforeLost := by
  simp [smOnEnter, SM_ite_sbl, ite_self]

theorem transition_to_current (now : ℚ) (sm : SM) (name : Status)
    (h : ¬ sm.current = name) : (transition_to now sm name).current = name := by
  simp [transition_to, h, SM_ite_current, smOnEnter_current, ite_self]

theorem transition_to_sbl_lost (now : ℚ) (sm : SM)
    (h : ¬ sm.current = Status.lost) :
    (transition_to now sm Status.lost).statusBeforeLost =
      if (sm.current).isActive = true then sm.current else sm.statusBeforeLost := by
  simp [transition_to, h, SM_ite_sbl, smOnEnter_lost_sbl, smOnExit_sbl, ite_self,
    Status.isActive]

theorem isActive_ne_lost (s : Status) (h : s.isActive = true) :
    ¬ s = Status.lost := by
  cases s <;> simp_all [Status.isActive]

theorem on_packet_received_current_lost (now : ℚ) (sm : SM)
    (hcur : sm.current = Status.lost) :
    (on_packet_received now sm).current =
      if (sm.statusBeforeLost).isActive = true then sm.statusBeforeLost
      else Status.connected := by
  obtain ⟨cur, prev, sbl, lpt, ls, rfa, hee, lef, wea, fsv, ev⟩ := sm
  have hc : cur = Status.lost := hcur
  subst hc
  by_cases hlp : (lpt = none ∧ ¬ lef = true)
  · simp only [on_packet_received, if_pos hlp]
    split_ifs with hact
    · exact transition_to_current now _ _
        (fun h => isActive_ne_lost sbl hact (by simpa using h.symm))
    · exact transition_to_current now _ _ (by simp)
  · simp only [on_packet_received, if_neg hlp]
    split_ifs with hact
    · exact transition_to_current now _ _
        (fun h => isActive_ne_lost sbl hact (by simpa using h.symm))
    · exact transition_to_current now _ _ (by simp)

/-- C8 (confirmed): entering `lost` from an active status
(connected/armed/disarmed) captures that status as `statusBeforeLost`; from
the lost state a received packet transitions the machine to the captured
status, or to `connected` when the stored value is not an active status; the
initial stored value is `connected`. -/
theorem lost_capture_and_restore :
    (∀ (sm : SM) (now : ℚ) (p : Status), sm.current = p → p.isActive = true →
      (transition_to now sm Status.lost).statusBeforeLost = p) ∧
    (∀ (sm : SM) (now : ℚ), sm.current = Status.lost →
      (sm.statusBeforeLost).isActive = true →
      (on_packet_received now sm).current = sm.statusBeforeLost) ∧
    (∀ (sm : SM) (now : ℚ), sm.current = Status.lost →
      ¬ (sm.statusBeforeLost).isActive = true →
      (on_packet_received now sm).current = Status.connected) ∧
    (∀ (now : ℚ) (fs : FSModel), (initSM now fs).statusBeforeLost = Status.connected) := by
  refine ⟨?_, ?_, ?_, ?_⟩
  · intro sm now p hcur hact
    have hne : ¬ sm.current = Status.lost := by
      rw [hcur]
      exact isActive_ne_lost p hact
    rw [transition_to_sbl_lost now sm hne, hcur, if_pos hact]
  · intro sm now hcur hact
    rw [on_packet_received_current_lost now sm hcur, if_pos hact]
  · intro sm now hcur hact
    rw [on_packet_received_current_lost now sm hcur, if_neg hact]
  · intro now fs
    rfl

/-- A concrete state machine in `armed` with a link established. -/
def c8Armed : SM :=
  { current := Status.armed, previousStatus := some Status.connected,
    statusBeforeLost := Status.connected, lastPacketTime := some 0,
    lostSince := none, recoveredFromLostAt := none,
    hasEverEstablishedLink := true, linkEstablishedFirstTime := true,
    waitingEnteredAt := none,
    fs := { enabled := true, chanCount := 3, curFreq := 5805,
            reserveFreq := 5745, pendingScheduledHop := none,
            pendingHopRequest := none },
    events := [] }

/-- A concrete state machine in `lost` that was armed before the loss. -/
def c8Lost : SM :=
  { c8Armed with current := Status.lost, statusBeforeLost := Status.armed,
                 lostSince := some 7 }

/-- C8, witness: entering lost from `armed` stores `armed`, and a packet in
the lost state restores `armed`. -/
theorem lost_capture_and_restore_witness :
    (transition_to 7 c8Armed Status.lost).statusBeforeLost = Status.armed ∧
      (on_packet_received 9 c8Lost).current = Status.armed := by
  refine ⟨lost_capture_and_restore.1 c8Armed 7 Status.armed rfl (by decide), ?_⟩
  have h := lost_capture_and_restore.2.1 c8Lost 9 rfl (by decide)
  simpa using h

/-! ## C4 — when the score is recomputed -/

theorem le_listMin_iff (l : List ℕ) (k : ℕ) (h : ¬ l = []) :
    k ≤ listMin l ↔ ∀ x ∈ l, k ≤ x := by
  induction l with
  | nil => cases h rfl
  | cons a t ih =>
    cases t with
    | nil => simp [listMin]
    | cons b t2 =>
      have ih2 := ih (by simp)
      simp only [listMin, le_min_iff, ih2]
      constructor
      · rintro ⟨h1, h2⟩ x hx
        rcases List.mem_cons.mp hx with rfl | hx2
        · exact h1
        · exact h2 x hx2
      · intro hall
        exact ⟨hall a (by simp), fun x hx => hall x (List.mem_cons_of_mem _ hx)⟩

theorem score_cond_iff {α : Type} (ls : List (List α)) (k : ℕ) :
    (¬ ((ls.filter (fun v => 0 < v.length)).map List.length) = [] ∧
      k ≤ listMin ((ls.filter (fun v => 0 < v.length)).map List.length)) ↔
    ((∃ v ∈ ls, ¬ v = []) ∧ ∀ v ∈ ls, ¬ v = [] → k ≤ v.length) := by
  have hmem : ∀ x : ℕ, x ∈ ((ls.filter (fun v => 0 < v.length)).map List.length) ↔
      ∃ v ∈ ls, ¬ v = [] ∧ v.length = x := by
    intro x
    simp [List.mem_filter, List.length_pos, and_assoc]
  have hnil : ((ls.filter (fun v => 0 < v.length)).map List.length) = [] ↔
      ∀ v ∈ ls, v = [] := by
    rw [List.map_eq_nil_iff, List.filter_eq_nil_iff]
    constructor
    · intro h v hv
      have h2 := h v hv
      simpa [List.length_pos] using h2
    · intro h v hv
      simp [h v hv]
  by_cases hex : ∃ v ∈ ls, ¬ v = []
  · have hne : ¬ ((ls.filter (fun v => 0 < v.length)).map List.length) = [] := by
      rw [hnil]
      obtain ⟨v, hv, hvne⟩ := hex
      intro hall
      exact hvne (hall v hv)
    rw [le_listMin_iff _ _ hne]
    constructor
    · rintro ⟨-, hall⟩
      refine ⟨hex, fun v hv hvne => ?_⟩
      exact hall v.length ((hmem v.length).mpr ⟨v, hv, hvne, rfl⟩)
    · rintro ⟨-, hall⟩
      refine ⟨hne, fun x hx => ?_⟩
      obtain ⟨v, hv, hvne, rfl⟩ := (hmem x).mp hx
      exact hall v hv hvne
  · constructor
    · rintro ⟨hne, -⟩
      exfalso
      apply hne
      rw [hnil]
      intro v hv
      by_contra hvne
      exact hex ⟨v, hv, hvne⟩
    · rintro ⟨hex2, -⟩
      exact absurd hex2 hex

theorem Channel_ite_score (c : Prop) [Decidable c] (a b : Channel) :
    (if c then a else b).score = if c then a.score else b.score :=
  apply_ite (fun x : Channel => x.score) c a b

theorem Channel_ite_meas (c : Prop) [Decidable c] (a b : Channel) :
    (if c then a else b).measurements =
      if c then a.measurements else b.measurements :=
  apply_ite (fun x : Channel => x.measurements) c a b

theorem add_measurement_score_eq (cfg : ScoreConfig) (now : ℚ) (ch : Channel)
    (rxId : String) (s : MeasurementStats)
    (h : ChannelMeasurements.hasStream rxId = true) :
    (add_measurement cfg now ch rxId s).score =
      if ¬ (((ch.measurements.appendStats rxId s).values.filter
              (fun v => 0 < v.length)).map List.length) = [] ∧
         cfg.score_frames ≤ listMin (((ch.measurements.appendStats rxId s).values.filter
              (fun v => 0 < v.length)).map List.length)
      then ch.score ++ [update_score_value cfg (ch.measurements.appendStats rxId s)]
      else ch.score := by
  by_cases hp : 0 < s.p_total <;>
    simp [add_measurement, h, hp, Channel_ite_score]

theorem add_measurement_meas_eq (cfg : ScoreConfig) (now : ℚ) (ch : Channel)
    (rxId : String) (s : MeasurementStats)
    (h : ChannelMeasurements.hasStream rxId = true) :
    (add_measurement cfg now ch rxId s).measurements =
      ch.measurements.appendStats rxId s := by
  by_cases hp : 0 < s.p_total <;>
    simp [add_measurement, h, hp, Channel_ite_meas, ite_self]

/-- C4 (amended): `add_measurement` ignores unknown stream ids; for a valid
stream id, a new score is appended exactly when, after appending the sample,
at least one stream window is non-empty and every non-empty stream window
holds at least `score_frames` samples — empty stream windows are ignored by
the trigger condition; otherwise the score history is unchanged. -/
theorem add_measurement_score_update_iff (cfg : ScoreConfig) (now : ℚ)
    (ch : Channel) (rxId : String) (s : MeasurementStats) :
    (¬ ChannelMeasurements.hasStream rxId = true →
      add_measurement cfg now ch rxId s = ch) ∧
    (ChannelMeasurements.hasStream rxId = true →
      (((add_measurement cfg now ch rxId s).score.length = ch.score.length + 1) ↔
        ((∃ v ∈ (ch.measurements.appendStats rxId s).values, ¬ v = []) ∧
         ∀ v ∈ (ch.measurements.appendStats rxId s).values, ¬ v = [] →
           cfg.score_frames ≤ v.length)) ∧
      (¬ ((∃ v ∈ (ch.measurements.appendStats rxId s).values, ¬ v = []) ∧
          ∀ v ∈ (ch.measurements.appendStats rxId s).values, ¬ v = [] →
            cfg.score_frames ≤ v.length) →
        (add_measurement cfg now ch rxId s).score = ch.score)) := by
  constructor
  · intro h
    simp [add_measurement, h]
  · intro h
    have hsc := add_measurement_score_eq cfg now ch rxId s h
    constructor
    · by_cases hc : (¬ (((ch.measurements.appendStats rxId s).values.filter
              (fun v => 0 < v.length)).map List.length) = [] ∧
            cfg.score_frames ≤ listMin (((ch.measurements.appendStats rxId s).values.filter
              (fun v => 0 < v.length)).map List.length))
      · rw [hsc, if_pos hc]
        exact iff_of_true (by simp) ((score_cond_iff _ _).mp hc)
      · rw [hsc, if_neg hc]
        exact iff_of_false (by omega) (fun hr => hc ((score_cond_iff _ _).mpr hr))
    · intro hnr
      have hc := fun hcc => hnr ((score_cond_iff
        (ch.measurements.appendStats rxId s).values cfg.score_frames).mp hcc)
      rw [hsc, if_neg hc]

/-- One concrete good measurement sample. -/
def c4Stats : MeasurementStats := ⟨100, 1, -50, 20⟩

/-- A channel that has received two video samples and nothing on mavlink and
tunnel. -/
noncomputable def c4Channel : Channel :=
  { freq := 5785, score := [100],
    measurements := { video := [c4Stats, c4Stats], mavlink := [], tunnel := [] },
    last_packet_time := 0, switched_at := 0 }

/-- C4, counterexample: the third video sample triggers a score update
(history grows from 1 to 2 entries) although the mavlink and tunnel windows
hold 0 < SCORE_FRAMES samples — the claim says no update may fire then. -/
theorem add_measurement_empty_stream_counterexample :
    (add_measurement defaultScoreConfig 1 c4Channel "video" c4Stats).score.length = 2 ∧
      (add_measurement defaultScoreConfig 1 c4Channel "video" c4Stats).measurements.mavlink = [] ∧
      c4Channel.measurements.mavlink.length < defaultScoreConfig.score_frames := by
  refine ⟨?_, ?_, by decide⟩
  · rw [add_measurement_score_eq defaultScoreConfig 1 c4Channel "video" c4Stats (by decide),
      if_pos (by decide)]
    simp [c4Channel]
  · rw [add_measurement_meas_eq defaultScoreConfig 1 c4Channel "video" c4Stats (by decide)]
    decide

/-- C4, witness: the amended theorem applied to concrete inputs — an unknown
stream id leaves the channel untouched, and a third video sample (with the
other windows empty) appends a score entry. -/
theorem add_measurement_score_update_iff_witness :
    add_measurement defaultScoreConfig 1 c4Channel "foo" c4Stats = c4Channel ∧
      (add_measurement defaultScoreConfig 1 c4Channel "video" c4Stats).score.length =
        c4Channel.score.length + 1 := by
  constructor
  · exact (add_measurement_score_update_iff defaultScoreConfig 1 c4Channel
      "foo" c4Stats).1 (by decide)
  · exact ((add_measurement_score_update_iff defaultScoreConfig 1 c4Channel
      "video" c4Stats).2 (by decide)).1.mpr (by decide)

/-! ## C5 — calculate_per refines the spec formula and is bounded -/

theorem normFrames_ge_one (fo : Option ℤ) : 1 ≤ normFrames fo := by
  unfold normFrames
  cases fo with
  | none => norm_num
  | some f =>
    dsimp only
    split <;> omega

theorem clamp_nonneg (x : ℤ) : 0 ≤ clamp x 0 100 := le_max_left 0 _

theorem clamp_le_100 (x : ℤ) : clamp x 0 100 ≤ 100 :=
  max_le (by norm_num) (min_le_right x 100)

theorem floor_le_pyRound (q : ℚ) : ⌊q⌋ ≤ pyRound q := by
  unfold pyRound
  dsimp only
  split_ifs <;> omega

theorem pyRound_ge_100 (q : ℚ) (h : (100 : ℚ) ≤ q) : (100 : ℤ) ≤ pyRound q := by
  have h1 : (100 : ℤ) ≤ ⌊q⌋ := Int.le_floor.mpr (by exact_mod_cast h)
  exact le_trans h1 (floor_le_pyRound q)

theorem pyRound_100 : pyRound (100 : ℚ) = 100 := by
  have hf : ⌊(100 : ℚ)⌋ = 100 := by norm_num
  unfold pyRound
  rw [hf]
  norm_num

theorem per_formula_eq (B T : ℤ) (hT : 0 < T) :
    clamp (pyRound ((min (B : ℚ) (T : ℚ)) / (T : ℚ) * 100)) 0 100 =
      clamp (pyRound (100 * (B : ℚ) / (T : ℚ))) 0 100 := by
  by_cases hBT : B ≤ T
  · rw [min_eq_left (show (B : ℚ) ≤ (T : ℚ) by exact_mod_cast hBT)]
    have he : (B : ℚ) / (T : ℚ) * 100 = 100 * (B : ℚ) / (T : ℚ) := by ring
    rw [he]
  · push_neg at hBT
    rw [min_eq_right (show (T : ℚ) ≤ (B : ℚ) by exact_mod_cast hBT.le)]
    have hT0 : (T : ℚ) ≠ 0 := by
      exact_mod_cast hT.ne'
    have h1 : (T : ℚ) / (T : ℚ) * 100 = 100 := by field_simp
    rw [h1]
    have h2 : (100 : ℚ) ≤ 100 * (B : ℚ) / (T : ℚ) := by
      rw [le_div_iff₀ (by exact_mod_cast hT)]
      have hTB : (T : ℚ) ≤ (B : ℚ) := by exact_mod_cast hBT.le
      nlinarith
    have h3 := pyRound_ge_100 _ h2
    rw [pyRound_100]
    unfold clamp
    rw [min_eq_right h3]
    norm_num

theorem streamTotal_nonneg (n : ℕ) (l : List MeasurementStats) :
    0 ≤ streamTotal n l := by
  unfold streamTotal
  apply List.sum_nonneg
  intro x hx
  obtain ⟨s, hs, rfl⟩ := List.mem_map.mp hx
  have h2 := List.mem_filter.mp hs
  have h3 : 0 < s.p_total := by simpa using h2.2
  omega

theorem sum_streamTotal_nonneg (n : ℕ) (ls : List (List MeasurementStats)) :
    0 ≤ (ls.map (streamTotal n)).sum := by
  apply List.sum_nonneg
  intro x hx
  obtain ⟨l, _, rfl⟩ := List.mem_map.mp hx
  exact streamTotal_nonneg n l

theorem all_isEmpty_iff (m : ChannelMeasurements) :
    ((m.values.filter (fun l => 0 < l.length)).map List.length = []) ↔
      (m.values.all (fun l => l.isEmpty) = true) := by
  rw [List.map_eq_nil_iff, List.filter_eq_nil_iff, List.all_eq_true]
  constructor
  · intro h a ha
    have h1 := h a ha
    have h2 : ¬ 0 < a.length := by simpa using h1
    have h3 : a = [] := by
      cases a with
      | nil => rfl
      | cons x t => simp at h2
    simp [h3]
  · intro h a ha
    have h1 := h a ha
    have h2 : a = [] := by simpa [List.isEmpty_iff] using h1
    simp [h2]

/-- Channel measurements with three video frames (one of them lossy) and one
heavily lossy mavlink frame. -/
def c5Meas : ChannelMeasurements :=
  { video := [⟨10, 0, 0, 0⟩, ⟨10, 0, 0, 0⟩, ⟨10, 5, 0, 0⟩],
    mavlink := [⟨10, 10, 0, 0⟩], tunnel := [] }

/-- C5, counterexample: `calculate_per` additionally caps the requested frame
count to the shortest non-empty stream window.  With three video frames, one
mavlink frame and `N = 3` the code uses only the last frame of each window
and returns `75`, while the claim's formula — the last `N` frames of each
non-empty stream window — sums all four frames and gives
`round(100 · 15 / 40) = 38`. -/
theorem calculate_per_cap_counterexample :
    calculate_per c5Meas (some 3) = 75 ∧ per_claim c5Meas (some 3) = 38 ∧
      ¬ calculate_per c5Meas (some 3) = per_claim c5Meas (some 3) := by
  have hp1 : pyRound (75 : ℚ) = 75 := by
    have hf : ⌊(75 : ℚ)⌋ = 75 := by norm_num
    unfold pyRound
    rw [hf]
    norm_num
  have hp2 : pyRound ((75 : ℚ) / 2) = 38 := by
    have hf : ⌊(75 : ℚ) / 2⌋ = 37 := by norm_num [Int.floor_eq_iff]
    unfold pyRound
    rw [hf]
    norm_num
  have h1 : calculate_per c5Meas (some 3) = 75 := by
    have hg : calculate_per c5Meas (some 3) = clamp (pyRound (75 : ℚ)) 0 100 := by
      norm_num [calculate_per, c5Meas, ChannelMeasurements.values, normFrames,
        listMin, lastN, streamTotal, streamBad, List.filter, List.drop]
      exact fun h => absurd h (by decide)
    rw [hg, hp1]
    decide
  have h2 : per_claim c5Meas (some 3) = 38 := by
    have hg : per_claim c5Meas (some 3) = clamp (pyRound ((75 : ℚ) / 2)) 0 100 := by
      norm_num [per_claim, c5Meas, ChannelMeasurements.values, normFrames,
        lastN, streamTotal, streamBad, List.filter, List.drop]
    rw [hg, hp2]
    decide
  refine ⟨h1, h2, ?_⟩
  rw [h1, h2]
  decide

/-- C5 (amended): `calculate_per` computes exactly the formula
`clamp(round(100·Σbad/Σtotal), 0, 100)` over the last `n` frames of every
non-empty stream window, where `n` is the requested frame count capped to
the shortest such window, counting only frames with individual
`p_total > 0`, returning `100` with no measurements at all or with a zero
contributing total; and its result always lies in `[0, 100]`. -/
theorem calculate_per_spec_and_bounds (m : ChannelMeasurements)
    (frames? : Option ℤ) :
    calculate_per m frames? = per_spec m frames? ∧
      0 ≤ calculate_per m frames? ∧ calculate_per m frames? ≤ 100 := by
  by_cases hnil : ((m.values.filter (fun l => 0 < l.length)).map List.length) = []
  · have hall := (all_isEmpty_iff m).mp hnil
    refine ⟨?_, ?_⟩
    · simp only [calculate_per, per_spec]
      rw [if_pos hnil, if_pos hall]
    · simp only [calculate_per]
      rw [if_pos hnil]
      norm_num
  · have hall : ¬ (m.values.all (fun l => l.isEmpty) = true) :=
      fun hc => hnil ((all_isEmpty_iff m).mpr hc)
    have hf1 : 1 ≤ normFrames frames? := normFrames_ge_one frames?
    have hfr : (if ((listMin ((m.values.filter (fun l => 0 < l.length)).map List.length)) : ℤ) <
          normFrames frames?
        then listMin ((m.values.filter (fun l => 0 < l.length)).map List.length)
        else (normFrames frames?).toNat) =
        min (normFrames frames?).toNat
          (listMin ((m.values.filter (fun l => 0 < l.length)).map List.length)) := by
      rw [min_def]
      split_ifs <;> omega
    refine ⟨?_, ?_⟩
    · simp only [calculate_per, per_spec]
      rw [if_neg hnil, if_neg hall, hfr]
      set L := m.values.filter (fun l => 0 < l.length) with hL
      set n := min (normFrames frames?).toNat (listMin (L.map List.length)) with hn
      set T := (L.map (streamTotal n)).sum with hT
      set B := (L.map (streamBad n)).sum with hB
      have hTnn : 0 ≤ T := by
        rw [hT]
        exact sum_streamTotal_nonneg _ _
      by_cases hTpos : 0 < T
      · rw [if_pos hTpos, if_neg (show ¬ T = 0 by omega)]
        exact per_formula_eq B T hTpos
      · rw [if_neg hTpos, if_pos (show T = 0 by omega)]
    · simp only [calculate_per]
      rw [if_neg hnil]
      split_ifs
      all_goals first
        | exact ⟨clamp_nonneg _, clamp_le_100 _⟩
        | norm_num

end WfbNg
